import Mathlib

/-!
Verification of the LLM orchestration core of `llm-mcp-tools`.

Shallow embedding of the tool-calling loop (`base-provider.ts`, second revision:
`_toolCallingLoop`), the model-selector parser (`model-service.ts`), the tool-server
protocol detection (`tool-client.ts` / `fastmcp-client-factory.ts`), the `/mcp-test`
route, the Ollama system-prompt insertion, and a model of `Promise.all` completion
semantics. Stateful JavaScript (mutable accumulators, the per-client cache, the
aliasing of message objects through a shallow array copy) is embedded by explicit
state passing.
-/

namespace LlmMcp

/-- `TokenUsage` (`types.ts`): prompt/completion/total token counts. -/
structure TokenUsage where
  prompt_tokens : Nat
  completion_tokens : Nat
  total_tokens : Nat
deriving DecidableEq, Repr

/-- `DurationUsage` (`types.ts`): nanosecond timing components. -/
structure DurationUsage where
  total_duration : Nat
  load_duration : Nat
  prompt_eval_duration : Nat
  eval_duration : Nat
deriving DecidableEq, Repr

/-- The `function` member of a `ToolCall`: function name and JSON-encoded arguments. -/
structure ToolFunction where
  name : String
  arguments : String
deriving DecidableEq, Repr

/-- `ToolCall` (`types.ts`): an id plus the requested function. -/
structure ToolCall where
  id : String
  function : ToolFunction
deriving DecidableEq, Repr

/-- Message roles of `ChatMessage`. -/
inductive Role
  | user
  | assistant
  | system
  | tool
deriving DecidableEq, Repr

/-- `ChatMessage` (`types.ts`): role, optional content, optional tool-call list (only on
assistant messages), optional `tool_call_id` (only on tool messages). -/
structure ChatMessage where
  role : Role
  content : Option String := none
  tool_calls : Option (List ToolCall) := none
  tool_call_id : Option String := none
deriving DecidableEq, Repr

/-- Componentwise addition of token usage (`totalUsage.x += step.x`). -/
def addUsage (a b : TokenUsage) : TokenUsage :=
  { prompt_tokens := a.prompt_tokens + b.prompt_tokens
    completion_tokens := a.completion_tokens + b.completion_tokens
    total_tokens := a.total_tokens + b.total_tokens }

/-- Componentwise addition of durations (`totalDuration.x += step.x`). -/
def addDuration (a b : DurationUsage) : DurationUsage :=
  { total_duration := a.total_duration + b.total_duration
    load_duration := a.load_duration + b.load_duration
    prompt_eval_duration := a.prompt_eval_duration + b.prompt_eval_duration
    eval_duration := a.eval_duration + b.eval_duration }

/-- The loop's initial token accumulator (base-provider.ts lines 282-286). -/
def zeroUsage : TokenUsage := ⟨0, 0, 0⟩

/-- The loop's initial duration accumulator (base-provider.ts lines 289-294). -/
def zeroDuration : DurationUsage := ⟨0, 0, 0, 0⟩

/-- `if (resp.usage) { totalUsage += resp.usage }`: add a step's usage when present. -/
def accUsage (acc : TokenUsage) (u : Option TokenUsage) : TokenUsage :=
  match u with
  | some x => addUsage acc x
  | none => acc

/-- `if (resp.duration) { totalDuration += resp.duration }`. -/
def accDuration (acc : DurationUsage) (d : Option DurationUsage) : DurationUsage :=
  match d with
  | some x => addDuration acc x
  | none => acc

/-- `LlmProviderResponse` (`types.ts`): content, optional tool calls, optional
usage/duration metadata of the turn. -/
structure LlmProviderResponse where
  content : Option String
  tool_calls : Option (List ToolCall)
  usage : Option TokenUsage := none
  duration : Option DurationUsage := none
deriving DecidableEq, Repr

/-- One provider reply: either a `StreamingResult` — its live text channel abstracted as
the list of chunks it will deliver, and its `finalUsagePromise` / `finalDurationPromise`
abstracted as the values those promises eventually resolve with — or a plain
`LlmProviderResponse`. -/
inductive LlmTurn
  | response (r : LlmProviderResponse)
  | streaming (chunks : List String) (finalUsage : Option TokenUsage)
      (finalDuration : Option DurationUsage)
deriving DecidableEq, Repr

/-- Outcome of `toolClient.callTool` for one call: `ok` carries the string that becomes
the tool message body (`typeof result === 'string' ? result : JSON.stringify(result)`
already applied); `err` carries the thrown error's `message`. -/
inductive ToolOutcome
  | ok (content : String)
  | err (message : String)
deriving DecidableEq, Repr

/-- One element of `toolResultPromises` (base-provider.ts lines 444-463): the `tool`
message produced for one `ToolCall`, both on success and on failure (in which case the
body is `"Error: " + error.message`). -/
def toolResultMessage (exec : ToolCall → ToolOutcome) (tc : ToolCall) : ChatMessage :=
  match exec tc with
  | .ok c => { role := .tool, tool_call_id := some tc.id, content := some c }
  | .err m => { role := .tool, tool_call_id := some tc.id, content := some ("Error: " ++ m) }

/-- Environment of one `_toolCallingLoop` run: the abstract provider methods
`_generateChatStream` / `_generateChatNonStreaming` as oracles indexed by the invocation
number (each loop iteration makes exactly one provider call and strictly extends the
conversation), and the tool executor. An oracle value means the call settled before the
`Promise.race` deadline; timeout rejections abort the whole run and are out of scope
here. -/
structure LoopEnv where
  stream : Nat → LlmTurn
  nonstream : Nat → LlmProviderResponse
  exec : ToolCall → ToolOutcome

/-- The reply received by the k-th provider invocation, by mode (base-provider.ts
lines 322-327). -/
def turnOf (env : LoopEnv) (isStreaming : Bool) (k : Nat) : LlmTurn :=
  if isStreaming then env.stream k else .response (env.nonstream k)

/-- Terminal value of `_toolCallingLoop`: a `StreamingResult` whose final usage/duration
promises have been resolved to the grand totals, a `NonStreamingResult`, or the thrown
max-tool-calls error (line 474). -/
inductive LoopResult
  | streamRes (chunks : List String) (finalUsage : TokenUsage) (finalDuration : DurationUsage)
  | nonStreamRes (content : String) (usage : TokenUsage) (duration : DurationUsage)
  | maxToolCallsExceeded
deriving DecidableEq, Repr

/-- Observable exit of the loop: the result, the final `currentMessages`, and
instrumentation mirroring the control flow: the number of provider invocations made and
the number of tool batches dispatched. -/
structure LoopExit where
  result : LoopResult
  conv : List ChatMessage
  providerCalls : Nat
  toolDispatches : Nat
deriving DecidableEq, Repr

/-- The assistant turn appended before a batch dispatch (base-provider.ts lines
436-440). -/
def assistantToolMsg (content : Option String) (tcs : List ToolCall) : ChatMessage :=
  { role := .assistant, content := content, tool_calls := some tcs }

/-- Body of `_toolCallingLoop` (base-provider.ts, second revision, lines 296-474): the
`while (toolCallCount < MAX_TOOL_CALLS)` loop, unrolled on the fuel
`MAX_TOOL_CALLS - toolCallCount`; `count` is `toolCallCount`, which also indexes the
provider invocations. A `StreamingResult` reply ends the loop at once, with the final
promises resolving to accumulator-plus-final-step (lines 337-395); a plain reply first
folds its usage/duration into the accumulators (lines 400-419), then either ends the
loop when `tool_calls` is absent or empty (lines 422-431) or appends the assistant turn
and — `Promise.all` preserving the declared order of `toolResultPromises`, see
`tool_results_in_declared_order` — the tool results in batch order, and iterates. -/
def loopAux (env : LoopEnv) (isStreaming : Bool) :
    Nat → Nat → List ChatMessage → TokenUsage → DurationUsage → LoopExit
  | 0, count, msgs, _, _ => ⟨.maxToolCallsExceeded, msgs, count, count⟩
  | fuel + 1, count, msgs, acc, dacc =>
    match turnOf env isStreaming count with
    | .streaming chunks fu fd =>
        ⟨.streamRes chunks (accUsage acc fu) (accDuration dacc fd), msgs, count + 1, count⟩
    | .response r =>
        match r.tool_calls with
        | none =>
            ⟨.nonStreamRes (r.content.getD "") (accUsage acc r.usage)
               (accDuration dacc r.duration), msgs, count + 1, count⟩
        | some [] =>
            ⟨.nonStreamRes (r.content.getD "") (accUsage acc r.usage)
               (accDuration dacc r.duration), msgs, count + 1, count⟩
        | some (tc0 :: tcrest) =>
            loopAux env isStreaming fuel (count + 1)
              (msgs ++ assistantToolMsg r.content (tc0 :: tcrest)
                 :: (tc0 :: tcrest).map (toolResultMessage env.exec))
              (accUsage acc r.usage) (accDuration dacc r.duration)

/-- `_toolCallingLoop(model, messages, isStreaming)` with
`MAX_TOOL_CALLS = config.maxToolCalls ?? 5` resolved to `maxToolCalls`: starts from a
copy of the caller's message list, zero accumulators and `toolCallCount = 0`. -/
def toolCallingLoop (env : LoopEnv) (isStreaming : Bool) (maxToolCalls : Nat)
    (messages : List ChatMessage) : LoopExit :=
  loopAux env isStreaming maxToolCalls 0 messages zeroUsage zeroDuration

/-- Does a provider reply carry a non-empty `tool_calls` list (the loop's dispatch
condition, lines 420-431)? -/
def turnHasToolCalls : LlmTurn → Bool
  | .response r =>
      match r.tool_calls with
      | some (_ :: _) => true
      | _ => false
  | .streaming _ _ _ => false

/-- The usage metadata a turn reports: the response's `usage`, or for a streaming turn
the value its `finalUsagePromise` resolves with. -/
def turnUsage : LlmTurn → Option TokenUsage
  | .response r => r.usage
  | .streaming _ fu _ => fu

/-- The duration metadata a turn reports. -/
def turnDuration : LlmTurn → Option DurationUsage
  | .response r => r.duration
  | .streaming _ _ fd => fd

/-- Componentwise sum of the usage of the first `n` provider turns, missing usage
contributing nothing. -/
def usageUpTo (env : LoopEnv) (isStreaming : Bool) (n : Nat) : TokenUsage :=
  (List.range n).foldl (fun a k => accUsage a (turnUsage (turnOf env isStreaming k))) zeroUsage

/-- Componentwise sum of the duration of the first `n` provider turns. -/
def durationUpTo (env : LoopEnv) (isStreaming : Bool) (n : Nat) : DurationUsage :=
  (List.range n).foldl (fun a k => accDuration a (turnDuration (turnOf env isStreaming k)))
    zeroDuration

/-- `parseModelSelection` (model-service.ts, first revision, lines 42-58): an empty
string (falsy) is rejected; otherwise the string is split at the FIRST colon
(`indexOf(':')`), which must be neither the first nor the last character; provider is
`substring(0, i)`, model is `substring(i + 1)`. Embedded on the character list. -/
def parseModelSelection (s : String) : Except String (String × String) :=
  let cs := s.toList
  if cs.isEmpty then
    .error "Invalid selectedModel format. Value cannot be empty."
  else
    match cs.findIdx? (fun c => c = ':') with
    | none => .error "Invalid selectedModel format. Expected provider:model."
    | some i =>
      if i = 0 ∨ i = cs.length - 1 then
        .error "Invalid selectedModel format. Expected provider:model."
      else
        .ok (⟨cs.take i⟩, ⟨cs.drop (i + 1)⟩)

/-- The chat route's error mapping (`app/api/chat/route.ts` lines 53-60) restricted to
selector parsing: `parseModelSelection` throws `TypeError`s, and a `TypeError` is
surfaced as HTTP 400. -/
def parseSelectionHttp (s : String) : Except Nat (String × String) :=
  match parseModelSelection s with
  | .ok v => .ok v
  | .error _ => .error 400

/-! ### Tool-server protocol detection (`tool-client.ts`, `fastmcp-client-factory.ts`) -/

/-- The two MCP wire protocols `FastMCPClientFactory.detectProtocolType` can detect. -/
inductive MCPProtocol
  | sse
  | streamablehttp
deriving DecidableEq, Repr

/-- The server types `ToolClient.detectServerType` caches. -/
inductive ServerType
  | fastmcpSse
  | fastmcpStreamableHttp
  | fastapi
deriving DecidableEq, Repr

/-- Top-level shape of a parsed JSON body as the detection code discriminates it:
a JSON array, a non-null JSON object, or anything else (string/number/boolean/null,
which fail the `Array.isArray(data) || (data && typeof data === 'object')` test). -/
inductive JsonShape
  | jarr
  | jobj
  | jprim
deriving DecidableEq, Repr

/-- `Response.ok`: HTTP status in the 2xx range. -/
def httpOk (st : Nat) : Bool := 200 ≤ st && st < 300

/-- Deadline of the StreamableHTTP connect probe to `<base>/mcp`
(fastmcp-client-factory.ts line 48). -/
def mcpProbeTimeoutMs : Nat := 5000

/-- Deadline of the `GET <base>/sse` probe (fastmcp-client-factory.ts line 76). -/
def sseProbeTimeoutMs : Nat := 5000

/-- Deadline of the `GET <base>/tools` probe (tool-client.ts line 59). -/
def toolsProbeTimeoutMs : Nat := 5000

/-- Deadline of the `GET <base>/` probe (tool-client.ts line 80). -/
def rootProbeTimeoutMs : Nat := 3000

/-- Outcomes of the four network probes a detection run may make against one URL, each
probe already subject to its deadline (a `none` status means the fetch threw —
network error or timeout): `mcpOk` is whether the MCP StreamableHTTP connect to
`<base>/mcp` completed within its deadline; `sseStatus` the status of
`GET <base>/sse` with `Accept: text/event-stream`; `toolsProbe` the status of
`GET <base>/tools` together with the parsed shape of its JSON body (`none` shape:
the body failed to parse as JSON); `rootStatus` the status of `GET <base>/`. -/
structure DetectEnv where
  mcpOk : Bool
  sseStatus : Option Nat
  toolsProbe : Option (Nat × Option JsonShape)
  rootStatus : Option Nat

/-- `FastMCPClientFactory.detectProtocolType` (part_006 lines 19-93): first the
StreamableHTTP connect probe (success selects `streamablehttp`), then `GET <base>/sse`
(2xx selects `sse`), otherwise undefined. -/
def detectProtocolType (env : DetectEnv) : Option MCPProtocol :=
  if env.mcpOk then some .streamablehttp
  else
    match env.sseStatus with
    | some st => if httpOk st || st = 200 then some .sse else none
    | none => none

/-- The inner error thrown when every probe fails (tool-client.ts line 93). -/
def protocolUnknownMsg : String :=
  "Unable to determine MCP server type. No supported protocols detected."

/-- The wrapped error `detectServerType` rethrows (tool-client.ts line 96). -/
def detectFailureMsg : String :=
  "Failed to detect MCP server type: " ++ protocolUnknownMsg

/-- `ToolClient.detectServerType` without its cache (tool-client.ts lines 36-97): the
factory's MCP detection first; failing that, `GET <base>/tools` selects `fastapi` on a
2xx response whose body parses as a JSON array or non-null object; failing that,
`GET <base>/` selects `fastapi` on 2xx; otherwise the protocol-unknown error. -/
def detectServerTypeUncached (env : DetectEnv) : Except String ServerType :=
  match detectProtocolType env with
  | some .sse => .ok .fastmcpSse
  | some .streamablehttp => .ok .fastmcpStreamableHttp
  | none =>
    let toolsHit :=
      match env.toolsProbe with
      | some (st, some .jarr) => httpOk st
      | some (st, some .jobj) => httpOk st
      | _ => false
    if toolsHit then .ok .fastapi
    else
      match env.rootStatus with
      | some st => if httpOk st then .ok .fastapi else .error detectFailureMsg
      | none => .error detectFailureMsg

/-- `ToolClient.detectServerType` with its per-client cache (tool-client.ts lines
30-98), the mutable `serverTypeCache` passed explicitly. Returns the outcome, the cache
afterwards, and whether any probe was executed. The per-URL `ToolClient` singletons
(`getToolClientInstance`, tool-client-manager.ts) make this cache per-URL. -/
def detectServerType (cache : Option ServerType) (env : DetectEnv) :
    Except String ServerType × Option ServerType × Bool :=
  match cache with
  | some t => (.ok t, some t, false)
  | none =>
    match detectServerTypeUncached env with
    | .ok t => (.ok t, some t, true)
    | .error e => (.error e, none, true)

/-! ### The `/mcp-test` probe route (part_000 lines 83-173) -/

/-- `McpToolSchema` (tool-client.ts lines 7-14), its JSON-schema body abstracted. -/
structure McpToolSchema where
  name : String
  description : Option String := none
deriving DecidableEq, Repr

/-- Environment of one `/mcp-test` run: `tools` is what `client.getToolsSchema()`
returns (it catches internal failures and returns `undefined`, embedded as `none`);
`serverType` is what `client.getServerType()` returns ('unknown' when detection fails);
`fallbackProbe` is the outcome of the fallback `GET` of the base URL: `none` when the
fetch threw, otherwise the status and whether the body parsed as JSON. -/
structure McpTestEnv where
  tools : Option (List McpToolSchema)
  serverType : Option ServerType
  fallbackProbe : Option (Nat × Bool)

/-- The JSON body of a `/mcp-test` response (the `TestResponse` interface), paired
below with the HTTP status. -/
structure TestResponse where
  status : String
  serverType : String
  toolsCount : Nat
  tools : Option (List McpToolSchema) := none
deriving DecidableEq, Repr

/-- The `serverType` string of a successful probe (part_000 lines 113-115). -/
def serverTypeLabel : Option ServerType → String
  | some .fastmcpSse => "FastMCP"
  | some .fastmcpStreamableHttp => "FastMCP"
  | some .fastapi => "FastAPI"
  | none => "Unknown"

/-- The HTTP-fallback path of the route (part_000 lines 129-160): `GET` the base URL;
on a 2xx response whose body parses as JSON answer `ok` with server type
`"FastAPI (HTTP fallback)"` and zero tools, otherwise answer `error` with HTTP 500. -/
def mcpTestFallback (env : McpTestEnv) : TestResponse × Nat :=
  match env.fallbackProbe with
  | some (st, jsonParsed) =>
    if httpOk st && jsonParsed then
      ({ status := "ok", serverType := "FastAPI (HTTP fallback)", toolsCount := 0 }, 200)
    else
      ({ status := "error", serverType := "unknown", toolsCount := 0 }, 500)
  | none => ({ status := "error", serverType := "unknown", toolsCount := 0 }, 500)

/-- `POST /mcp-test` (part_000 lines 83-173): an empty URL is a 400; a discovered tool
list that is `undefined` or empty is thrown as `'No tools available on the server'` and
handled by the fallback path; otherwise the response reports the detected server type,
the tool count, and the first 3 tool schemas (`tools.slice(0, 3)`). -/
def mcpTestPost (url : String) (env : McpTestEnv) : TestResponse × Nat :=
  if url = "" then
    ({ status := "error", serverType := "unknown", toolsCount := 0 }, 400)
  else
    match env.tools with
    | some (t0 :: trest) =>
      ({ status := "ok", serverType := serverTypeLabel env.serverType
         toolsCount := (t0 :: trest).length, tools := some ((t0 :: trest).take 3) }, 200)
    | some [] => mcpTestFallback env
    | none => mcpTestFallback env

/-! ### Ollama system-prompt insertion (`providers/ollama.ts` lines 82-99) -/

/-- `OllamaChatProvider.buildMessagesForApi`: makes a SHALLOW copy
`apiMessages = [...messages]` of the caller's array; when a `systemPrompt` is
configured and the first message is already a `system` message it executes
`firstMessage.content = systemPrompt` — an in-place update of the message OBJECT, which
the shallow copy shares with the caller's array — otherwise it unshifts a fresh system
message. Embedded with explicit aliasing: the result is the pair
`(apiMessages, the caller's message list after the call)`, the second component making
the shared-object mutation visible. -/
def buildMessagesForApi (systemPrompt : Option String) (messages : List ChatMessage) :
    List ChatMessage × List ChatMessage :=
  match systemPrompt with
  | none => (messages, messages)
  | some sp =>
    match messages with
    | first :: rest =>
      if first.role = .system then
        let mutated := { first with content := some sp }
        (mutated :: rest, mutated :: rest)
      else
        (⟨.system, some sp, none, none⟩ :: first :: rest, first :: rest)
    | [] => ([⟨.system, some sp, none, none⟩], [])

/-! ### `Promise.all` completion-order model (base-provider.ts lines 442-466) -/

/-- One settled promise writing its value into its slot of the result array
(`results[i] = value`). -/
def promiseWrite {α : Type} (res : Nat → Option α) (ev : Nat × α) : Nat → Option α :=
  fun j => if j = ev.1 then some ev.2 else res j

/-- Model of `Promise.all(tasks)` under an arbitrary completion schedule: task `i`
settles with value `tasks[i]`; settlements occur in the order given by `order`
(a permutation of the indices), each writing into its own slot; once all have settled
the result array is read out slot by slot. -/
def promiseAllSim {α : Type} (tasks : List α) (order : List Nat) : List (Option α) :=
  (List.range tasks.length).map
    ((order.filterMap (fun i => (tasks[i]?).map (fun a => (i, a)))).foldl promiseWrite
      (fun _ => none))

/-! ### Streaming multiplexer (spec-modelled) -/

/-- One client-visible frame of the event-framed stream: the `<json>` of a
`data: <json>` line. -/
inductive Frame
  | text (payload : String)
  | usage (payload : TokenUsage)
  | duration (payload : DurationUsage)
deriving DecidableEq, Repr

/-- Modelled from the spec: the trailer emission of the streaming multiplexer (§4.5).
The multiplexer that frames the loop's `StreamingResult` into `data:` events is not
among the sources (only its consumer `page.tsx` and the SSE headers of the chat route
are); per the spec, after the text ends it awaits the resolved usage and duration and
emits one frame for each value that exists, usage first, omitting missing ones. -/
def muxTrailers (u : Option TokenUsage) (d : Option DurationUsage) : List Frame :=
  (match u with
   | some x => [Frame.usage x]
   | none => []) ++
  (match d with
   | some y => [Frame.duration y]
   | none => [])

/-- Modelled from the spec: the streaming multiplexer's emission loop (§4.5). It reads
the text chunks one at a time, forwarding each as a `text` frame in arrival order, and
on stream end emits the trailers and closes. -/
def muxEmit : List String → Option TokenUsage → Option DurationUsage → List Frame
  | [], u, d => muxTrailers u d
  | c :: cs, u, d => .text c :: muxEmit cs u d

/-- Frame classifiers. -/
def isTextFrame : Frame → Bool
  | .text _ => true
  | _ => false

def isUsageFrame : Frame → Bool
  | .usage _ => true
  | _ => false

def isDurationFrame : Frame → Bool
  | .duration _ => true
  | _ => false

/-- The payload of a text frame. -/
def textPayload : Frame → Option String
  | .text s => some s
  | _ => none

/-- Automaton accepting exactly the frame sequences of shape
`text* usage? duration?`: state 0 before any trailer, state 1 after `usage`, state 2
after `duration`. -/
def checkFrameOrder : Nat → List Frame → Bool
  | _, [] => true
  | 0, .text _ :: r => checkFrameOrder 0 r
  | 0, .usage _ :: r => checkFrameOrder 1 r
  | 0, .duration _ :: r => checkFrameOrder 2 r
  | 1, .duration _ :: r => checkFrameOrder 2 r
  | _, _ => false

/-- The `GET <base>/sse` probe did not select SSE: every delivered status is non-2xx
(a `none` status — the fetch threw under its deadline — is covered trivially). -/
def sseProbeFails (env : DetectEnv) : Prop :=
  ∀ st, env.sseStatus = some st → httpOk st = false

/-- The `GET <base>/tools` probe did not select plain HTTP: any delivered response is
non-2xx, unparseable, or parses to a JSON value that is neither array nor object. -/
def toolsProbeFails (env : DetectEnv) : Prop :=
  ∀ st sh, env.toolsProbe = some (st, sh) →
    httpOk st = false ∨ sh = none ∨ sh = some .jprim

/-- The `GET <base>/` probe did not select plain HTTP. -/
def rootProbeFails (env : DetectEnv) : Prop :=
  ∀ st, env.rootStatus = some st → httpOk st = false

/-- Accumulator-threaded usage sum over provider invocations `count, …, count+n-1`,
generalizing `usageUpTo` to a mid-loop accumulator state. -/
def usageFrom (env : LoopEnv) (b : Bool) (acc : TokenUsage) (count n : Nat) : TokenUsage :=
  (List.range' count n).foldl (fun a k => accUsage a (turnUsage (turnOf env b k))) acc

/-- Accumulator-threaded duration sum over invocations `count, …, count+n-1`. -/
def durationFrom (env : LoopEnv) (b : Bool) (dacc : DurationUsage) (count n : Nat) :
    DurationUsage :=
  (List.range' count n).foldl (fun a k => accDuration a (turnDuration (turnOf env b k))) dacc

/-- A provider that requests the same one-element tool batch on every invocation
(used to witness the iteration cap). -/
def envAlwaysToolCalls : LoopEnv :=
  { stream := fun _ =>
      .response ⟨none, some [⟨"t1", ⟨"get_current_time", "\x7b\x7d"⟩⟩], none, none⟩
    nonstream := fun _ =>
      ⟨none, some [⟨"t1", ⟨"get_current_time", "\x7b\x7d"⟩⟩], none, none⟩
    exec := fun _ => .ok "2025-01-01T00:00:00Z" }

/-- The spec's Scenario B environment: turn 0 requests one tool call and reports usage
`{10, 2, 12}`; turn 1 streams the terminal answer with final usage `{15, 8, 23}`. -/
def envScenarioB : LoopEnv :=
  { stream := fun k =>
      match k with
      | 0 => .response ⟨none, some [⟨"t1", ⟨"get_current_time", "\x7b\x7d"⟩⟩],
               some ⟨10, 2, 12⟩, some ⟨40, 1, 2, 3⟩⟩
      | _ => .streaming ["It is 2025-01-01"] (some ⟨15, 8, 23⟩) (some ⟨37, 4, 5, 6⟩)
    nonstream := fun _ => ⟨some "unused", none, none, none⟩
    exec := fun _ => .ok "2025-01-01T00:00:00Z" }

/-- The spec's Scenario C environment: turn 0 requests `unknown_tool`, whose execution
raises; turn 1 answers with final text and no tool calls. -/
def envScenarioC : LoopEnv :=
  { stream := fun _ => .streaming ["unused"] none none
    nonstream := fun k =>
      match k with
      | 0 => ⟨none, some [⟨"c1", ⟨"unknown_tool", "\x7b\x7d"⟩⟩], some ⟨10, 2, 12⟩, none⟩
      | _ => ⟨some "Sorry, I cannot do that.", none, some ⟨15, 8, 23⟩, none⟩
    exec := fun _ => .err "Tool not found" }

/-- A two-call batch and an executor for the completion-order witness. -/
def batchTwoCalls : List ToolCall :=
  [⟨"w1", ⟨"get_weather", "\x7b\x7d"⟩⟩, ⟨"w2", ⟨"get_time", "\x7b\x7d"⟩⟩]

/-- Executor for the completion-order witness. -/
def execTwoCalls : ToolCall → ToolOutcome := fun tc => .ok ("result of " ++ tc.id)

/-! ## Theorems -/

/-- Splitting a character list at its first colon, shared by the selector theorems. -/
theorem parseModelSelection_toList (s : String) :
    parseModelSelection s =
      (let cs := s.toList
       if cs.isEmpty then
         .error "Invalid selectedModel format. Value cannot be empty."
       else
         match cs.findIdx? (fun c => c = ':') with
         | none => .error "Invalid selectedModel format. Expected provider:model."
         | some i =>
           if i = 0 ∨ i = cs.length - 1 then
             .error "Invalid selectedModel format. Expected provider:model."
           else
             .ok (⟨cs.take i⟩, ⟨cs.drop (i + 1)⟩)) := rfl

/-- Claim C8: with `max_tool_calls = 0` the loop makes no provider call and dispatches
no tool batch: the `while` guard fails at once and the max-iterations error is thrown
before anything else, on both streaming and non-streaming paths. In particular the
claim's disjunction holds through its second disjunct, and no tool call is ever
dispatched. -/
theorem max_zero_fails_before_any_dispatch (env : LoopEnv) (isStreaming : Bool)
    (messages : List ChatMessage) :
    toolCallingLoop env isStreaming 0 messages =
      ⟨.maxToolCallsExceeded, messages, 0, 0⟩ := rfl

/-- Claim C9: `buildMessagesForApi` with a configured system prompt and a history whose
first message is already a `system` message overwrites that message's `content` in
place through the object shared with the shallow array copy: the caller's history is
mutated, contradicting the function's own avoid-modifying-the-original-history comment
and the spec's immutability of appended messages. -/
theorem ollama_system_prompt_mutates_history :
    (buildMessagesForApi (some "NEW") [⟨.system, some "OLD", none, none⟩]).2 =
      [⟨.system, some "NEW", none, none⟩] ∧
    (buildMessagesForApi (some "NEW") [⟨.system, some "OLD", none, none⟩]).2 ≠
      [⟨.system, some "OLD", none, none⟩] :=
  ⟨rfl, by decide⟩

theorem muxEmit_eq_texts_append (chunks : List String) (u : Option TokenUsage)
    (d : Option DurationUsage) :
    muxEmit chunks u d = chunks.map Frame.text ++ muxTrailers u d := by
  induction chunks with
  | nil => rfl
  | cons c cs ih => simp [muxEmit, ih]

theorem checkFrameOrder_trailers (u : Option TokenUsage) (d : Option DurationUsage) :
    checkFrameOrder 0 (muxTrailers u d) = true := by
  cases u <;> cases d <;> rfl

/-- Claim C2: the event-framed output of a successful streaming run is the text frames
in source order, then the usage frame (exactly once when the provider supplied usage,
omitted otherwise), then the duration frame (exactly once when supplied, omitted
otherwise), then the close; the whole sequence matches `text* usage? duration?`, so
usage never precedes a text frame and duration never precedes usage. -/
theorem stream_frames_text_usage_duration_order (chunks : List String)
    (u : Option TokenUsage) (d : Option DurationUsage) :
    muxEmit chunks u d = chunks.map Frame.text ++ muxTrailers u d ∧
    (muxEmit chunks u d).filterMap textPayload = chunks ∧
    (muxEmit chunks u d).countP isUsageFrame = (if u.isSome then 1 else 0) ∧
    (muxEmit chunks u d).countP isDurationFrame = (if d.isSome then 1 else 0) ∧
    checkFrameOrder 0 (muxEmit chunks u d) = true := by
  refine ⟨muxEmit_eq_texts_append chunks u d, ?_, ?_, ?_, ?_⟩
  · induction chunks with
    | nil => cases u <;> cases d <;> rfl
    | cons c cs ih => simpa [muxEmit, textPayload] using ih
  · induction chunks with
    | nil => cases u <;> cases d <;> rfl
    | cons c cs ih => simpa [muxEmit, List.countP_cons, isUsageFrame] using ih
  · induction chunks with
    | nil => cases u <;> cases d <;> rfl
    | cons c cs ih => simpa [muxEmit, List.countP_cons, isDurationFrame] using ih
  · induction chunks with
    | nil => exact checkFrameOrder_trailers u d
    | cons c cs ih => simpa [muxEmit, checkFrameOrder] using ih

/-- Claim C6: the model selector splits at the first colon only. The flagship example
`"ollama:qwen3:0.6b"` parses to provider `"ollama"` and model `"qwen3:0.6b"`; the empty
string, `":foo"`, `"foo:"` and colon-free strings are `TypeError`s surfaced as
HTTP 400; in general, whenever the first colon sits at an interior position `i`, the
parse succeeds with the prefix before `i` and the whole suffix after `i`. -/
theorem selector_splits_on_first_colon :
    parseModelSelection "ollama:qwen3:0.6b" = .ok ("ollama", "qwen3:0.6b") ∧
    parseSelectionHttp "" = .error 400 ∧
    parseSelectionHttp ":foo" = .error 400 ∧
    parseSelectionHttp "foo:" = .error 400 ∧
    parseSelectionHttp "foo" = .error 400 ∧
    (∀ (cs : List Char) (i : Nat), cs.findIdx? (fun c => c = ':') = some i →
      0 < i → i + 1 < cs.length →
      parseModelSelection ⟨cs⟩ = .ok (⟨cs.take i⟩, ⟨cs.drop (i + 1)⟩)) ∧
    (∀ s : String, (∀ c ∈ s.toList, c ≠ ':') → ∃ e, parseModelSelection s = .error e) := by
  refine ⟨rfl, rfl, rfl, rfl, rfl, ?_, ?_⟩
  · intro cs i hfind hpos hlast
    obtain ⟨a, l, rfl⟩ : ∃ a l, cs = a :: l := by
      cases cs with
      | nil => simp at hfind
      | cons a l => exact ⟨a, l, rfl⟩
    rw [parseModelSelection_toList]
    have htl : (String.mk (a :: l)).toList = a :: l := rfl
    simp only [htl, List.isEmpty_cons, Bool.false_eq_true, if_false, hfind]
    rw [if_neg (by omega)]
  · intro s hno
    rw [parseModelSelection_toList]
    cases hd : s.toList with
    | nil =>
      have hd2 : s.data = ([] : List Char) := hd
      exact ⟨"Invalid selectedModel format. Value cannot be empty.", by simp [hd, hd2]⟩
    | cons a l =>
      have hd2 : s.data = a :: l := hd
      have hfind : (a :: l).findIdx? (fun c => c = ':') = none := by
        rw [List.findIdx?_eq_none_iff]
        intro c hc
        have := hno c (by rw [hd]; exact hc)
        simpa using this
      exact ⟨"Invalid selectedModel format. Expected provider:model.",
        by simp [hd, hd2, hfind]⟩

theorem detectProtocolType_none_of_fails (env : DetectEnv) (hmcp : env.mcpOk = false)
    (hsse : sseProbeFails env) : detectProtocolType env = none := by
  simp only [detectProtocolType, hmcp, Bool.false_eq_true, if_false]
  cases hs : env.sseStatus with
  | none => rfl
  | some s =>
    have h1 := hsse s hs
    have h2 : ¬s = 200 := by
      intro h
      subst h
      simp [httpOk] at h1
    simp [h1, h2]

theorem toolsHit_false_of_fails (env : DetectEnv) (h : toolsProbeFails env) :
    (match env.toolsProbe with
      | some (st, some .jarr) => httpOk st
      | some (st, some .jobj) => httpOk st
      | _ => false) = false := by
  cases hp : env.toolsProbe with
  | none => rfl
  | some p =>
    obtain ⟨st, sh⟩ := p
    cases sh with
    | none => rfl
    | some shape =>
      cases shape with
      | jarr => rcases h st (some .jarr) hp with h1 | h1 | h1 <;> simp_all
      | jobj => rcases h st (some .jobj) hp with h1 | h1 | h1 <;> simp_all
      | jprim => rfl

/-- Claim C7: the probe deadlines are 5 s, 5 s, 5 s and 3 s; a cached detection answers
from the cache without probing, and once a detection succeeds every later call on the
same client (hence, through the per-URL singletons, on the same URL) is cache-served;
the uncached algorithm tries, in this fixed order, the MCP StreamableHTTP connect to
`<base>/mcp`, then `GET <base>/sse` selecting SSE on 2xx, then `GET <base>/tools`
selecting plain HTTP on a 2xx JSON array or object body, then `GET <base>/` selecting
plain HTTP on 2xx, and otherwise fails with the protocol-unknown error. -/
theorem protocol_detection_order_and_cache :
    (mcpProbeTimeoutMs = 5000 ∧ sseProbeTimeoutMs = 5000 ∧
     toolsProbeTimeoutMs = 5000 ∧ rootProbeTimeoutMs = 3000) ∧
    (∀ t env, detectServerType (some t) env = (.ok t, some t, false)) ∧
    (∀ env env2 t, detectServerType none env = (.ok t, some t, true) →
      detectServerType (detectServerType none env).2.1 env2 = (.ok t, some t, false)) ∧
    (∀ env, env.mcpOk = true → detectServerTypeUncached env = .ok .fastmcpStreamableHttp) ∧
    (∀ env st, env.mcpOk = false → env.sseStatus = some st → httpOk st = true →
      detectServerTypeUncached env = .ok .fastmcpSse) ∧
    (∀ env st sh, env.mcpOk = false → sseProbeFails env →
      env.toolsProbe = some (st, some sh) → httpOk st = true →
      (sh = .jarr ∨ sh = .jobj) → detectServerTypeUncached env = .ok .fastapi) ∧
    (∀ env st, env.mcpOk = false → sseProbeFails env → toolsProbeFails env →
      env.rootStatus = some st → httpOk st = true →
      detectServerTypeUncached env = .ok .fastapi) ∧
    (∀ env, env.mcpOk = false → sseProbeFails env → toolsProbeFails env →
      rootProbeFails env → detectServerTypeUncached env = .error detectFailureMsg) := by
  refine ⟨⟨rfl, rfl, rfl, rfl⟩, fun t env => rfl, ?_, ?_, ?_, ?_, ?_, ?_⟩
  · intro env env2 t h
    rw [h]
    rfl
  · intro env h
    simp [detectServerTypeUncached, detectProtocolType, h]
  · intro env st hmcp hsse hok
    simp [detectServerTypeUncached, detectProtocolType, hmcp, hsse, hok]
  · intro env st sh hmcp hsse htools hok hshape
    have hsse2 := detectProtocolType_none_of_fails env hmcp hsse
    rcases hshape with rfl | rfl <;>
      simp [detectServerTypeUncached, hsse2, htools, hok]
  · intro env st hmcp hsse htools hroot hok
    have hsse2 := detectProtocolType_none_of_fails env hmcp hsse
    have ht := toolsHit_false_of_fails env htools
    simp [detectServerTypeUncached, hsse2, ht, hroot, hok]
  · intro env hmcp hsse htools hroot
    have hsse2 := detectProtocolType_none_of_fails env hmcp hsse
    have ht := toolsHit_false_of_fails env htools
    cases hr : env.rootStatus with
    | none => simp [detectServerTypeUncached, hsse2, ht, hr]
    | some s => simp [detectServerTypeUncached, hsse2, ht, hr, hroot s hr]

/-- Witness for C7: a probe environment in which the MCP and SSE probes fail, the
`/tools` probe returns a 2xx JSON array, and the cache discipline behaves as proved. -/
theorem protocol_detection_witness :
    ({ mcpOk := false, sseStatus := some 404, toolsProbe := some (200, some .jarr),
       rootStatus := none : DetectEnv }).mcpOk = false ∧
    detectServerTypeUncached
      { mcpOk := false, sseStatus := some 404, toolsProbe := some (200, some .jarr),
        rootStatus := none } = .ok .fastapi ∧
    detectServerType (some .fastapi)
      { mcpOk := false, sseStatus := none, toolsProbe := none, rootStatus := none } =
      (.ok .fastapi, some .fastapi, false) :=
  ⟨rfl,
   (protocol_detection_order_and_cache.2.2.2.2.2.1
     { mcpOk := false, sseStatus := some 404, toolsProbe := some (200, some .jarr),
       rootStatus := none }
     200 .jarr rfl
     (fun st hst => by
       simp only [Option.some.injEq] at hst
       subst hst
       decide)
     rfl rfl (Or.inl rfl)),
   protocol_detection_order_and_cache.2.1 .fastapi
     { mcpOk := false, sseStatus := none, toolsProbe := none, rootStatus := none }⟩

/-- Claim C10: when the tool client reports an empty or undefined tool list, `/mcp-test`
never answers `ok` with the detected server type: it answers through the HTTP fallback —
`ok` with server type `"FastAPI (HTTP fallback)"` and `toolsCount` 0 exactly when the
plain GET of the base URL yields a 2xx JSON body, and otherwise `error` with HTTP 500;
moreover every genuinely successful response carries at most the first 3 tool
schemas. -/
theorem mcp_test_empty_tools_is_failure :
    (∀ (url : String) (env : McpTestEnv), url ≠ "" →
      env.tools = none ∨ env.tools = some [] →
      mcpTestPost url env = mcpTestFallback env ∧
      ((∃ st, env.fallbackProbe = some (st, true) ∧ httpOk st = true) →
        mcpTestPost url env =
          ({ status := "ok", serverType := "FastAPI (HTTP fallback)", toolsCount := 0 }, 200)) ∧
      ((∀ st ok, env.fallbackProbe = some (st, ok) → httpOk st = false ∨ ok = false) →
        mcpTestPost url env =
          ({ status := "error", serverType := "unknown", toolsCount := 0 }, 500))) ∧
    (∀ (url : String) (env : McpTestEnv) (ts : List McpToolSchema), url ≠ "" →
      env.tools = some ts → ts ≠ [] →
      (mcpTestPost url env).1.status = "ok" ∧
      (mcpTestPost url env).1.serverType = serverTypeLabel env.serverType ∧
      (mcpTestPost url env).1.toolsCount = ts.length ∧
      (mcpTestPost url env).1.tools = some (ts.take 3) ∧
      (ts.take 3).length ≤ 3) := by
  constructor
  · intro url env hurl htools
    have hmain : mcpTestPost url env = mcpTestFallback env := by
      rcases htools with h | h <;> simp [mcpTestPost, hurl, h]
    refine ⟨hmain, ?_, ?_⟩
    · rintro ⟨st, hprobe, hok⟩
      rw [hmain]
      simp [mcpTestFallback, hprobe, hok]
    · intro hfail
      rw [hmain]
      cases hp : env.fallbackProbe with
      | none => simp [mcpTestFallback, hp]
      | some p =>
        obtain ⟨st, ok⟩ := p
        rcases hfail st ok hp with h | h <;> simp [mcpTestFallback, hp, h]
  · intro url env ts hurl htools hne
    obtain ⟨t0, trest, rfl⟩ : ∃ t0 trest, ts = t0 :: trest := by
      cases ts with
      | nil => exact absurd rfl hne
      | cons t0 trest => exact ⟨t0, trest, rfl⟩
    simp [mcpTestPost, hurl, htools]

/-- Witness for C10: a reachable server whose discovered tool list is empty, with a
fallback GET that returns a 2xx JSON body, is reported as the HTTP fallback with zero
tools. -/
theorem mcp_test_empty_tools_witness :
    mcpTestPost "http://localhost:8000"
      { tools := some [], serverType := some .fastapi, fallbackProbe := some (200, true) } =
      ({ status := "ok", serverType := "FastAPI (HTTP fallback)", toolsCount := 0 }, 200) :=
  ((mcp_test_empty_tools_is_failure.1 "http://localhost:8000"
      { tools := some [], serverType := some .fastapi, fallbackProbe := some (200, true) }
      (by decide) (Or.inr rfl)).2.1) ⟨200, rfl, rfl⟩

/-- Witness for C6: the interior-first-colon clause applied at `"a:b"`. -/
theorem selector_split_witness :
    parseModelSelection ⟨['a', ':', 'b']⟩ = .ok (⟨['a']⟩, ⟨['b']⟩) :=
  selector_splits_on_first_colon.2.2.2.2.2.1 ['a', ':', 'b'] 1 rfl (by omega) (by decide)

theorem usageFrom_zero (env : LoopEnv) (b : Bool) (acc : TokenUsage) (count : Nat) :
    usageFrom env b acc count 0 = acc := rfl

theorem durationFrom_zero (env : LoopEnv) (b : Bool) (dacc : DurationUsage)
    (count : Nat) : durationFrom env b dacc count 0 = dacc := rfl

theorem usageFrom_succ (env : LoopEnv) (b : Bool) (acc : TokenUsage) (count n : Nat) :
    usageFrom env b acc count (n + 1) =
      usageFrom env b (accUsage acc (turnUsage (turnOf env b count))) (count + 1) n := by
  simp [usageFrom, List.range'_succ]

theorem durationFrom_succ (env : LoopEnv) (b : Bool) (dacc : DurationUsage)
    (count n : Nat) :
    durationFrom env b dacc count (n + 1) =
      durationFrom env b (accDuration dacc (turnDuration (turnOf env b count)))
        (count + 1) n := by
  simp [durationFrom, List.range'_succ]

theorem usageUpTo_eq_usageFrom (env : LoopEnv) (b : Bool) (n : Nat) :
    usageUpTo env b n = usageFrom env b zeroUsage 0 n := by
  simp [usageUpTo, usageFrom, List.range_eq_range']

theorem durationUpTo_eq_durationFrom (env : LoopEnv) (b : Bool) (n : Nat) :
    durationUpTo env b n = durationFrom env b zeroDuration 0 n := by
  simp [durationUpTo, durationFrom, List.range_eq_range']

theorem loopAux_providerCalls_le (env : LoopEnv) (b : Bool) :
    ∀ fuel count msgs acc dacc,
      (loopAux env b fuel count msgs acc dacc).providerCalls ≤ count + fuel := by
  intro fuel
  induction fuel with
  | zero =>
    intro count msgs acc dacc
    show count ≤ count + 0
    omega
  | succ n ih =>
    intro count msgs acc dacc
    simp only [loopAux]
    cases h : turnOf env b count with
    | streaming chunks fu fd =>
      show count + 1 ≤ count + (n + 1)
      omega
    | response r =>
      cases htc : r.tool_calls with
      | none =>
        simp only [htc]
        show count + 1 ≤ count + (n + 1)
        omega
      | some tcs =>
        cases tcs with
        | nil =>
          simp only [htc]
          show count + 1 ≤ count + (n + 1)
          omega
        | cons tc0 tcrest =>
          simp only [htc]
          exact Nat.le_trans (ih (count + 1) _ _ _) (by omega)

theorem loopAux_providerCalls_ge (env : LoopEnv) (b : Bool) :
    ∀ fuel count msgs acc dacc,
      count ≤ (loopAux env b fuel count msgs acc dacc).providerCalls := by
  intro fuel
  induction fuel with
  | zero =>
    intro count msgs acc dacc
    exact Nat.le_refl count
  | succ n ih =>
    intro count msgs acc dacc
    simp only [loopAux]
    cases h : turnOf env b count with
    | streaming chunks fu fd => exact Nat.le_succ count
    | response r =>
      cases htc : r.tool_calls with
      | none =>
        simp only [htc]
        exact Nat.le_succ count
      | some tcs =>
        cases tcs with
        | nil =>
          simp only [htc]
          exact Nat.le_succ count
        | cons tc0 tcrest =>
          simp only [htc]
          exact Nat.le_trans (Nat.le_succ count) (ih (count + 1) _ _ _)

theorem loopAux_max_when_all_tool_calls (env : LoopEnv) (b : Bool) :
    ∀ fuel count msgs acc dacc,
      (∀ k, count ≤ k → k < count + fuel → turnHasToolCalls (turnOf env b k) = true) →
      ∃ conv, loopAux env b fuel count msgs acc dacc =
        ⟨.maxToolCallsExceeded, conv, count + fuel, count + fuel⟩ := by
  intro fuel
  induction fuel with
  | zero =>
    intro count msgs acc dacc _
    exact ⟨msgs, rfl⟩
  | succ n ih =>
    intro count msgs acc dacc hall
    have h0 : turnHasToolCalls (turnOf env b count) = true :=
      hall count (Nat.le_refl _) (by omega)
    cases h : turnOf env b count with
    | streaming chunks fu fd =>
      rw [h] at h0
      simp [turnHasToolCalls] at h0
    | response r =>
      cases htc : r.tool_calls with
      | none =>
        rw [h] at h0
        simp [turnHasToolCalls, htc] at h0
      | some tcs =>
        cases tcs with
        | nil =>
          rw [h] at h0
          simp [turnHasToolCalls, htc] at h0
        | cons tc0 tcrest =>
          obtain ⟨conv, hconv⟩ := ih (count + 1)
            (msgs ++ assistantToolMsg r.content (tc0 :: tcrest)
              :: (tc0 :: tcrest).map (toolResultMessage env.exec))
            (accUsage acc r.usage) (accDuration dacc r.duration)
            (fun k hk1 hk2 => hall k (by omega) (by omega))
          refine ⟨conv, ?_⟩
          simp only [loopAux, h, htc]
          rw [hconv]
          have harith : count + 1 + n = count + (n + 1) := by omega
          rw [harith]

/-- Claim C1: with `max_tool_calls = N` the loop makes at most `N` provider
invocations; when every received provider response carries a non-empty `tool_calls`
list, it makes exactly `N` invocations, dispatches exactly `N` tool batches, and then
throws the max-iterations error instead of iterating further. -/
theorem loop_caps_provider_rounds (env : LoopEnv) (b : Bool) (N : Nat)
    (msgs : List ChatMessage) (hN : 1 ≤ N)
    (hall : ∀ k, k < N → turnHasToolCalls (turnOf env b k) = true) :
    (toolCallingLoop env b N msgs).result = .maxToolCallsExceeded ∧
    (toolCallingLoop env b N msgs).providerCalls = N ∧
    (toolCallingLoop env b N msgs).toolDispatches = N ∧
    (∀ (env2 : LoopEnv) (b2 : Bool) (msgs2 : List ChatMessage),
      (toolCallingLoop env2 b2 N msgs2).providerCalls ≤ N) := by
  obtain ⟨conv, hconv⟩ := loopAux_max_when_all_tool_calls env b N 0 msgs zeroUsage
    zeroDuration (fun k hk1 hk2 => hall k (by omega))
  have hmain : toolCallingLoop env b N msgs =
      ⟨.maxToolCallsExceeded, conv, 0 + N, 0 + N⟩ := hconv
  refine ⟨by rw [hmain], by rw [hmain]; show 0 + N = N; omega,
    by rw [hmain]; show 0 + N = N; omega, ?_⟩
  intro env2 b2 msgs2
  have := loopAux_providerCalls_le env2 b2 N 0 msgs2 zeroUsage zeroDuration
  simpa [toolCallingLoop] using this

/-- Witness for C1: a provider that always requests a tool call, capped at
`max_tool_calls = 2`, is invoked exactly twice and the run fails with the
max-iterations error. -/
theorem loop_caps_provider_rounds_witness :
    (toolCallingLoop envAlwaysToolCalls false 2 []).result = .maxToolCallsExceeded ∧
    (toolCallingLoop envAlwaysToolCalls false 2 []).providerCalls = 2 :=
  ⟨(loop_caps_provider_rounds envAlwaysToolCalls false 2 [] (by omega)
      (fun k _ => rfl)).1,
   (loop_caps_provider_rounds envAlwaysToolCalls false 2 [] (by omega)
      (fun k _ => rfl)).2.1⟩

theorem loopAux_totals (env : LoopEnv) (b : Bool) :
    ∀ fuel count msgs acc dacc,
      (∀ c u d, (loopAux env b fuel count msgs acc dacc).result = .nonStreamRes c u d →
        u = usageFrom env b acc count
              ((loopAux env b fuel count msgs acc dacc).providerCalls - count) ∧
        d = durationFrom env b dacc count
              ((loopAux env b fuel count msgs acc dacc).providerCalls - count)) ∧
      (∀ ch fu fd, (loopAux env b fuel count msgs acc dacc).result = .streamRes ch fu fd →
        fu = usageFrom env b acc count
              ((loopAux env b fuel count msgs acc dacc).providerCalls - count) ∧
        fd = durationFrom env b dacc count
              ((loopAux env b fuel count msgs acc dacc).providerCalls - count)) := by
  intro fuel
  induction fuel with
  | zero =>
    intro count msgs acc dacc
    constructor
    · intro c u d h
      simp [loopAux] at h
    · intro ch fu fd h
      simp [loopAux] at h
  | succ n ih =>
    intro count msgs acc dacc
    cases h : turnOf env b count with
    | streaming chunks fu0 fd0 =>
      have hred : loopAux env b (n + 1) count msgs acc dacc =
          ⟨.streamRes chunks (accUsage acc fu0) (accDuration dacc fd0),
           msgs, count + 1, count⟩ := by
        simp only [loopAux, h]
      constructor
      · intro c u d hres
        rw [hred] at hres
        simp at hres
      · intro ch fu fd hres
        rw [hred] at hres
        simp only [LoopResult.streamRes.injEq] at hres
        obtain ⟨rfl, rfl, rfl⟩ := hres
        rw [hred]
        have hdiff : count + 1 - count = 1 := by omega
        simp only [hdiff, usageFrom_succ, durationFrom_succ, usageFrom_zero,
          durationFrom_zero, h, turnUsage, turnDuration]
        exact ⟨trivial, trivial⟩
    | response r =>
      cases htc : r.tool_calls with
      | none =>
        have hred : loopAux env b (n + 1) count msgs acc dacc =
            ⟨.nonStreamRes (r.content.getD "") (accUsage acc r.usage)
               (accDuration dacc r.duration), msgs, count + 1, count⟩ := by
          simp only [loopAux, h, htc]
        constructor
        · intro c u d hres
          rw [hred] at hres
          simp only [LoopResult.nonStreamRes.injEq] at hres
          obtain ⟨rfl, rfl, rfl⟩ := hres
          rw [hred]
          have hdiff : count + 1 - count = 1 := by omega
          simp only [hdiff, usageFrom_succ, durationFrom_succ, usageFrom_zero,
            durationFrom_zero, h, turnUsage, turnDuration]
          exact ⟨trivial, trivial⟩
        · intro ch fu fd hres
          rw [hred] at hres
          simp at hres
      | some tcs =>
        cases tcs with
        | nil =>
          have hred : loopAux env b (n + 1) count msgs acc dacc =
              ⟨.nonStreamRes (r.content.getD "") (accUsage acc r.usage)
                 (accDuration dacc r.duration), msgs, count + 1, count⟩ := by
            simp only [loopAux, h, htc]
          constructor
          · intro c u d hres
            rw [hred] at hres
            simp only [LoopResult.nonStreamRes.injEq] at hres
            obtain ⟨rfl, rfl, rfl⟩ := hres
            rw [hred]
            have hdiff : count + 1 - count = 1 := by omega
            simp only [hdiff, usageFrom_succ, durationFrom_succ, usageFrom_zero,
              durationFrom_zero, h, turnUsage, turnDuration]
            exact ⟨trivial, trivial⟩
          · intro ch fu fd hres
            rw [hred] at hres
            simp at hres
        | cons tc0 tcrest =>
          have hred : loopAux env b (n + 1) count msgs acc dacc =
              loopAux env b n (count + 1)
                (msgs ++ assistantToolMsg r.content (tc0 :: tcrest)
                  :: (tc0 :: tcrest).map (toolResultMessage env.exec))
                (accUsage acc r.usage) (accDuration dacc r.duration) := by
            simp only [loopAux, h, htc]
          have hge := loopAux_providerCalls_ge env b n (count + 1)
            (msgs ++ assistantToolMsg r.content (tc0 :: tcrest)
              :: (tc0 :: tcrest).map (toolResultMessage env.exec))
            (accUsage acc r.usage) (accDuration dacc r.duration)
          obtain ⟨ihn, ihs⟩ := ih (count + 1)
            (msgs ++ assistantToolMsg r.content (tc0 :: tcrest)
              :: (tc0 :: tcrest).map (toolResultMessage env.exec))
            (accUsage acc r.usage) (accDuration dacc r.duration)
          constructor
          · intro c u d hres
            rw [hred] at hres ⊢
            obtain ⟨hu, hd⟩ := ihn c u d hres
            have hdiff :
                (loopAux env b n (count + 1)
                  (msgs ++ assistantToolMsg r.content (tc0 :: tcrest)
                    :: (tc0 :: tcrest).map (toolResultMessage env.exec))
                  (accUsage acc r.usage) (accDuration dacc r.duration)).providerCalls
                  - count =
                ((loopAux env b n (count + 1)
                  (msgs ++ assistantToolMsg r.content (tc0 :: tcrest)
                    :: (tc0 :: tcrest).map (toolResultMessage env.exec))
                  (accUsage acc r.usage) (accDuration dacc r.duration)).providerCalls
                  - (count + 1)) + 1 := by omega
            rw [hdiff, usageFrom_succ, durationFrom_succ, h]
            exact ⟨hu, hd⟩
          · intro ch fu fd hres
            rw [hred] at hres ⊢
            obtain ⟨hu, hd⟩ := ihs ch fu fd hres
            have hdiff :
                (loopAux env b n (count + 1)
                  (msgs ++ assistantToolMsg r.content (tc0 :: tcrest)
                    :: (tc0 :: tcrest).map (toolResultMessage env.exec))
                  (accUsage acc r.usage) (accDuration dacc r.duration)).providerCalls
                  - count =
                ((loopAux env b n (count + 1)
                  (msgs ++ assistantToolMsg r.content (tc0 :: tcrest)
                    :: (tc0 :: tcrest).map (toolResultMessage env.exec))
                  (accUsage acc r.usage) (accDuration dacc r.duration)).providerCalls
                  - (count + 1)) + 1 := by omega
            rw [hdiff, usageFrom_succ, durationFrom_succ, h]
            exact ⟨hu, hd⟩

/-- Claim C3: the reported totals are componentwise sums over all model turns. On a
non-streaming exit, the returned usage/duration equal the sum of every invoked turn's
usage/duration (tool-call turns included); on a streaming exit, the values the final
promises resolve to equal the accumulated tool-call turns' totals plus the terminal
streaming turn's values — the sum over all invoked turns. -/
theorem loop_totals_componentwise_sum (env : LoopEnv) (b : Bool) (N : Nat)
    (msgs : List ChatMessage) :
    (∀ c u d, (toolCallingLoop env b N msgs).result = .nonStreamRes c u d →
      u = usageUpTo env b (toolCallingLoop env b N msgs).providerCalls ∧
      d = durationUpTo env b (toolCallingLoop env b N msgs).providerCalls) ∧
    (∀ ch fu fd, (toolCallingLoop env b N msgs).result = .streamRes ch fu fd →
      fu = usageUpTo env b (toolCallingLoop env b N msgs).providerCalls ∧
      fd = durationUpTo env b (toolCallingLoop env b N msgs).providerCalls) := by
  obtain ⟨hn, hs⟩ := loopAux_totals env b N 0 msgs zeroUsage zeroDuration
  constructor
  · intro c u d h
    obtain ⟨hu, hd⟩ := hn c u d h
    constructor
    · rw [usageUpTo_eq_usageFrom]
      simpa [toolCallingLoop] using hu
    · rw [durationUpTo_eq_durationFrom]
      simpa [toolCallingLoop] using hd
  · intro ch fu fd h
    obtain ⟨hu, hd⟩ := hs ch fu fd h
    constructor
    · rw [usageUpTo_eq_usageFrom]
      simpa [toolCallingLoop] using hu
    · rw [durationUpTo_eq_durationFrom]
      simpa [toolCallingLoop] using hd

/-- Witness for C3: the spec's Scenario B — turns with usage `{10, 2, 12}` and
`{15, 8, 23}` aggregate to `{25, 10, 35}`, and the durations add likewise. -/
theorem loop_totals_witness :
    (⟨25, 10, 35⟩ : TokenUsage) =
      usageUpTo envScenarioB true
        (toolCallingLoop envScenarioB true 5 [⟨.user, some "hi", none, none⟩]).providerCalls ∧
    (⟨77, 5, 7, 9⟩ : DurationUsage) =
      durationUpTo envScenarioB true
        (toolCallingLoop envScenarioB true 5 [⟨.user, some "hi", none, none⟩]).providerCalls :=
  (loop_totals_componentwise_sum envScenarioB true 5 [⟨.user, some "hi", none, none⟩]).2
    ["It is 2025-01-01"] ⟨25, 10, 35⟩ ⟨77, 5, 7, 9⟩ rfl

theorem foldl_promiseWrite_of_not_mem {α : Type} :
    ∀ (events : List (Nat × α)) (f : Nat → Option α) (j : Nat),
      (∀ e ∈ events, e.1 ≠ j) → (events.foldl promiseWrite f) j = f j := by
  intro events
  induction events with
  | nil =>
    intro f j _
    rfl
  | cons e rest ih =>
    intro f j h
    have h1 : e.1 ≠ j := h e (List.mem_cons_self e rest)
    simp only [List.foldl_cons]
    rw [ih _ j (fun x hx => h x (List.mem_cons_of_mem _ hx))]
    unfold promiseWrite
    rw [if_neg (fun h2 => h1 h2.symm)]

theorem foldl_promiseWrite_unique {α : Type} :
    ∀ (events : List (Nat × α)) (f : Nat → Option α) (j : Nat) (a : α),
      (j, a) ∈ events → (events.map Prod.fst).Nodup →
      (events.foldl promiseWrite f) j = some a := by
  intro events
  induction events with
  | nil =>
    intro f j a h _
    simp at h
  | cons e rest ih =>
    intro f j a hmem hnodup
    have hnd : e.1 ∉ rest.map Prod.fst ∧ (rest.map Prod.fst).Nodup := by
      rw [List.map_cons] at hnodup
      exact List.nodup_cons.mp hnodup
    simp only [List.foldl_cons]
    rcases List.mem_cons.mp hmem with heq | hmem2
    · have he : e = (j, a) := heq.symm
      subst he
      have hnotin : ∀ x ∈ rest, x.1 ≠ j := by
        intro x hx hxj
        have hx1 : x.1 ∈ rest.map Prod.fst := List.mem_map_of_mem Prod.fst hx
        rw [hxj] at hx1
        exact hnd.1 hx1
      rw [foldl_promiseWrite_of_not_mem rest _ j hnotin]
      unfold promiseWrite
      rw [if_pos rfl]
    · exact ih _ j a hmem2 hnd.2

theorem promiseAllSim_events_map_fst {α : Type} (tasks : List α) :
    ∀ order : List Nat, (∀ i ∈ order, i < tasks.length) →
      (order.filterMap (fun i => (tasks[i]?).map (fun a => (i, a)))).map Prod.fst =
        order := by
  intro order
  induction order with
  | nil =>
    intro _
    rfl
  | cons i rest ih =>
    intro h
    have hi : i < tasks.length := h i (List.mem_cons_self i rest)
    rw [List.filterMap_cons, List.getElem?_eq_getElem hi]
    simp only [Option.map_some']
    rw [List.map_cons]
    rw [ih (fun x hx => h x (List.mem_cons_of_mem _ hx))]

theorem promiseAllSim_perm {α : Type} (tasks : List α) (order : List Nat)
    (h : order.Perm (List.range tasks.length)) :
    promiseAllSim tasks order = tasks.map some := by
  have hlt : ∀ i ∈ order, i < tasks.length := fun i hi =>
    List.mem_range.mp (h.mem_iff.mp hi)
  have hnodup : order.Nodup := (h.nodup_iff).mpr (List.nodup_range _)
  apply List.ext_getElem
  · simp [promiseAllSim]
  · intro j h1 h2
    have hjlt : j < tasks.length := by simpa [promiseAllSim] using h1
    simp only [promiseAllSim, List.getElem_map, List.getElem_range]
    apply foldl_promiseWrite_unique
    · apply List.mem_filterMap.mpr
      refine ⟨j, h.mem_iff.mpr (List.mem_range.mpr hjlt), ?_⟩
      rw [List.getElem?_eq_getElem hjlt]
      rfl
    · rw [promiseAllSim_events_map_fst tasks order hlt]
      exact hnodup

/-- Claim C4: tool results keep the declared batch order. Under any completion
permutation, the `Promise.all` readout equals the batch mapped in its declared order;
each produced tool message is bound to its own call's id; and the loop appends exactly
that in-order block (assistant turn, then the per-call tool messages) before
iterating. -/
theorem tool_results_in_declared_order (exec : ToolCall → ToolOutcome)
    (tcs : List ToolCall) (order : List Nat)
    (h : order.Perm (List.range tcs.length)) :
    promiseAllSim (tcs.map (toolResultMessage exec)) order =
      (tcs.map (toolResultMessage exec)).map some ∧
    (∀ tc ∈ tcs, (toolResultMessage exec tc).tool_call_id = some tc.id) ∧
    (∀ (env : LoopEnv) (b : Bool) (fuel count : Nat) (msgs : List ChatMessage)
        (acc : TokenUsage) (dacc : DurationUsage) (r : LlmProviderResponse),
      turnOf env b count = .response r → r.tool_calls = some tcs → tcs ≠ [] →
      loopAux env b (fuel + 1) count msgs acc dacc =
        loopAux env b fuel (count + 1)
          (msgs ++ assistantToolMsg r.content tcs
            :: tcs.map (toolResultMessage env.exec))
          (accUsage acc r.usage) (accDuration dacc r.duration)) := by
  refine ⟨?_, ?_, ?_⟩
  · apply promiseAllSim_perm
    simpa using h
  · intro tc _
    unfold toolResultMessage
    cases exec tc <;> rfl
  · intro env b fuel count msgs acc dacc r hturn htc hne
    obtain ⟨t0, trest, rfl⟩ : ∃ t0 trest, tcs = t0 :: trest := by
      cases tcs with
      | nil => exact absurd rfl hne
      | cons t0 trest => exact ⟨t0, trest, rfl⟩
    simp only [loopAux, hturn, htc]

/-- Witness for C4: a two-call batch whose second call completes first still reads out
in declared order. -/
theorem tool_results_order_witness :
    promiseAllSim (batchTwoCalls.map (toolResultMessage execTwoCalls)) [1, 0] =
      (batchTwoCalls.map (toolResultMessage execTwoCalls)).map some :=
  (tool_results_in_declared_order execTwoCalls batchTwoCalls [1, 0] (by decide)).1

/-- Claim C5: a failing tool call in a dispatched batch does not abort the loop: the
batch's tool message for that call has body `"Error: " + message` and that call's
`tool_call_id`, the message is in the final conversation, the loop makes the next
provider invocation, and — the next reply carrying no tool calls — the run ends without
the max-iterations error. Stated on `loopAux` at an arbitrary mid-loop state, so it
covers every iteration of every run with at least two remaining iterations. -/
theorem tool_error_folded_loop_continues (env : LoopEnv) (b : Bool)
    (fuel count : Nat) (msgs : List ChatMessage) (acc : TokenUsage)
    (dacc : DurationUsage) (r : LlmProviderResponse) (tcs : List ToolCall)
    (tc : ToolCall) (m : String)
    (hturn : turnOf env b count = .response r)
    (htc : r.tool_calls = some tcs)
    (hmem : tc ∈ tcs)
    (herr : env.exec tc = .err m)
    (hnext : turnHasToolCalls (turnOf env b (count + 1)) = false) :
    toolResultMessage env.exec tc =
      ⟨.tool, some ("Error: " ++ m), none, some tc.id⟩ ∧
    (⟨.tool, some ("Error: " ++ m), none, some tc.id⟩ : ChatMessage) ∈
      (loopAux env b (fuel + 2) count msgs acc dacc).conv ∧
    (loopAux env b (fuel + 2) count msgs acc dacc).result ≠ .maxToolCallsExceeded ∧
    (loopAux env b (fuel + 2) count msgs acc dacc).providerCalls = count + 2 := by
  have hmsg : toolResultMessage env.exec tc =
      ⟨.tool, some ("Error: " ++ m), none, some tc.id⟩ := by
    unfold toolResultMessage
    rw [herr]
  obtain ⟨t0, trest, rfl⟩ : ∃ t0 trest, tcs = t0 :: trest := by
    cases tcs with
    | nil => simp at hmem
    | cons t0 trest => exact ⟨t0, trest, rfl⟩
  have hred : loopAux env b (fuel + 2) count msgs acc dacc =
      loopAux env b (fuel + 1) (count + 1)
        (msgs ++ assistantToolMsg r.content (t0 :: trest)
          :: (t0 :: trest).map (toolResultMessage env.exec))
        (accUsage acc r.usage) (accDuration dacc r.duration) := by
    simp only [loopAux, hturn, htc]
  have hmem2 : (⟨.tool, some ("Error: " ++ m), none, some tc.id⟩ : ChatMessage) ∈
      msgs ++ assistantToolMsg r.content (t0 :: trest)
        :: (t0 :: trest).map (toolResultMessage env.exec) := by
    apply List.mem_append_right
    apply List.mem_cons_of_mem
    rw [← hmsg]
    exact List.mem_map_of_mem (toolResultMessage env.exec) hmem
  refine ⟨hmsg, ?_⟩
  rw [hred]
  cases h2 : turnOf env b (count + 1) with
  | streaming chunks fu fd =>
    have hexit : loopAux env b (fuel + 1) (count + 1)
        (msgs ++ assistantToolMsg r.content (t0 :: trest)
          :: (t0 :: trest).map (toolResultMessage env.exec))
        (accUsage acc r.usage) (accDuration dacc r.duration) =
        ⟨.streamRes chunks (accUsage (accUsage acc r.usage) fu)
           (accDuration (accDuration dacc r.duration) fd),
         msgs ++ assistantToolMsg r.content (t0 :: trest)
           :: (t0 :: trest).map (toolResultMessage env.exec),
         count + 2, count + 1⟩ := by
      simp only [loopAux, h2]
    rw [hexit]
    exact ⟨hmem2, by simp, rfl⟩
  | response r2 =>
    rw [h2] at hnext
    cases htc2 : r2.tool_calls with
    | none =>
      have hexit : loopAux env b (fuel + 1) (count + 1)
          (msgs ++ assistantToolMsg r.content (t0 :: trest)
            :: (t0 :: trest).map (toolResultMessage env.exec))
          (accUsage acc r.usage) (accDuration dacc r.duration) =
          ⟨.nonStreamRes (r2.content.getD "") (accUsage (accUsage acc r.usage) r2.usage)
             (accDuration (accDuration dacc r.duration) r2.duration),
           msgs ++ assistantToolMsg r.content (t0 :: trest)
             :: (t0 :: trest).map (toolResultMessage env.exec),
           count + 2, count + 1⟩ := by
        simp only [loopAux, h2, htc2]
      rw [hexit]
      exact ⟨hmem2, by simp, rfl⟩
    | some tcs2 =>
      cases tcs2 with
      | nil =>
        have hexit : loopAux env b (fuel + 1) (count + 1)
            (msgs ++ assistantToolMsg r.content (t0 :: trest)
              :: (t0 :: trest).map (toolResultMessage env.exec))
            (accUsage acc r.usage) (accDuration dacc r.duration) =
            ⟨.nonStreamRes (r2.content.getD "")
               (accUsage (accUsage acc r.usage) r2.usage)
               (accDuration (accDuration dacc r.duration) r2.duration),
             msgs ++ assistantToolMsg r.content (t0 :: trest)
               :: (t0 :: trest).map (toolResultMessage env.exec),
             count + 2, count + 1⟩ := by
          simp only [loopAux, h2, htc2]
        rw [hexit]
        exact ⟨hmem2, by simp, rfl⟩
      | cons u0 urest =>
        rw [turnHasToolCalls, htc2] at hnext
        simp at hnext

/-- Witness for C5: the spec's Scenario C — `unknown_tool` raises, the error is folded
into a tool message, the model answers on the next turn, and no max-iterations error is
raised. -/
theorem tool_error_folded_witness :
    (⟨.tool, some ("Error: " ++ "Tool not found"), none, some "c1"⟩ : ChatMessage) ∈
      (loopAux envScenarioC false (3 + 2) 0 [⟨.user, some "hi", none, none⟩]
        zeroUsage zeroDuration).conv ∧
    (loopAux envScenarioC false (3 + 2) 0 [⟨.user, some "hi", none, none⟩]
        zeroUsage zeroDuration).result ≠ .maxToolCallsExceeded :=
  ⟨(tool_error_folded_loop_continues envScenarioC false 3 0
      [⟨.user, some "hi", none, none⟩] zeroUsage zeroDuration
      ⟨none, some [⟨"c1", ⟨"unknown_tool", "\x7b\x7d"⟩⟩], some ⟨10, 2, 12⟩, none⟩
      [⟨"c1", ⟨"unknown_tool", "\x7b\x7d"⟩⟩] ⟨"c1", ⟨"unknown_tool", "\x7b\x7d"⟩⟩
      "Tool not found" rfl rfl (List.mem_singleton.mpr rfl) rfl rfl).2.1,
   (tool_error_folded_loop_continues envScenarioC false 3 0
      [⟨.user, some "hi", none, none⟩] zeroUsage zeroDuration
      ⟨none, some [⟨"c1", ⟨"unknown_tool", "\x7b\x7d"⟩⟩], some ⟨10, 2, 12⟩, none⟩
      [⟨"c1", ⟨"unknown_tool", "\x7b\x7d"⟩⟩] ⟨"c1", ⟨"unknown_tool", "\x7b\x7d"⟩⟩
      "Tool not found" rfl rfl (List.mem_singleton.mpr rfl) rfl rfl).2.2.1⟩

end LlmMcp
